import Mathlib

/-! Verification of the poopoobar progress-bar library.

The development shallowly embeds the TypeScript sources:
  * `src/humanize.ts`      → `floorToOneDecimal`, `twoChar`, `toFixed2`,
                             `humanizeSpeed`, `humanizeDuration`
  * `src/eta-tracker.ts`   → `Queue`, `Sample`, `EtaTracker`, `updateProgressAndGetLatestEta`
  * `src/progress-bar.ts`  → `BarState`, `BarSt`, `renderLineStr`, `renderLine`,
                             `ProgressBar.refresh`, `.start`, `.tick`, `.stop`, `periodicFire`

JavaScript numbers are modelled as `JsNum`: a finite rational (`JsNum.num q`),
the two infinities, or `NaN`.  Rounding of binary floating point is not modelled;
every claim below concerns exact boundary behaviour that is identical in ℚ and
in IEEE doubles at the inputs used.  JS machine integers stay within 2^53 in
every reachable state of this library, so `Nat`/`Int`/`ℚ` arithmetic is exact.
-/

/-- Model of a JavaScript `number`: finite value, `Infinity`, `-Infinity`, or `NaN`. -/
inductive JsNum where
  | num (q : ℚ)
  | posInf
  | negInf
  | nan
deriving DecidableEq, Repr

/-- JS division of two finite numbers `a / b`, including division by (positive) zero:
`x / 0` is `Infinity` for `x > 0`, `-Infinity` for `x < 0`, and `NaN` for `0 / 0`. -/
def jsDivQ (a b : ℚ) : JsNum :=
  if b = 0 then
    (if a = 0 then JsNum.nan else if 0 < a then JsNum.posInf else JsNum.negInf)
  else JsNum.num (a / b)

/-- JS division of a finite number by an arbitrary number (used for `(total - progress) / speed`):
a finite value divided by an infinity is `0`; anything divided by `NaN` is `NaN`. -/
def jsDivNum (a : ℚ) : JsNum → JsNum
  | JsNum.num b => jsDivQ a b
  | JsNum.posInf => JsNum.num 0
  | JsNum.negInf => JsNum.num 0
  | JsNum.nan => JsNum.nan

/-- JS `s.padStart(n, ' ')`: left-pad with spaces up to length `n`;
strings already at least `n` long are returned unchanged. -/
def padStart (s : String) (n : ℕ) : String :=
  String.mk (List.replicate (n - s.length) ' ') ++ s

/-- JS `c.repeat(n)`: the character `c` repeated `n` times. -/
def repChar (n : ℕ) (c : Char) : String :=
  String.mk (List.replicate n c)

/-! Embedding of `src/humanize.ts`. -/

/-- Function `floorToOneDecimal` of `humanize.ts`: `String(Math.floor(f * 10) / 10)`.
`Math.floor(f * 10)` is `⌊f * 10⌋`; JS prints `n / 10` without a decimal point
when `n` is a multiple of ten, and with exactly one decimal digit otherwise. -/
def floorToOneDecimal (q : ℚ) : String :=
  let n : ℤ := ⌊q * 10⌋
  let m : ℕ := n.natAbs
  let s : String :=
    if m % 10 = 0 then toString (m / 10)
    else toString (m / 10) ++ "." ++ toString (m % 10)
  if n < 0 then "-" ++ s else s

/-- Function `twoChar` of `humanize.ts`, verbatim: the conditional
`n < 10 ? String(n) : space + String(n)`.  Note the source pads with a space
when `n ≥ 10`, not when `n < 10`, although its own doc comment promises a
two-character result. -/
def twoChar (n : ℕ) : String :=
  if n < 10 then toString n else " " ++ toString n

/-- JS `x.toFixed(2)` for a finite number: the integer `n` with `n / 100`
closest to `x` (ties choose the larger `n`), printed with exactly two decimals. -/
def toFixed2 (q : ℚ) : String :=
  let n : ℤ := ⌊q * 100 + 1 / 2⌋
  let m : ℕ := n.natAbs
  let s : String :=
    toString (m / 100) ++ "." ++ (if m % 100 < 10 then "0" else "") ++ toString (m % 100)
  if n < 0 then "-" ++ s else s

/-- Function `humanizeSpeed` of `humanize.ts`.  The `.num` branch is the source's
comparison chain verbatim (`speed === 0`, `speed < 1000`, `< 1e6`, `< 1e9`,
`< 1e12`, `< 1e14`, else the clamp).  For the non-finite constructors the same
chain is folded using IEEE comparison semantics: every `<` involving `NaN` is
false and `Infinity` exceeds every bound, so both fall through to the final
clamp `"99999 gbps"`; `-Infinity === 0` is false and `-Infinity < 1000` is
true, so JS would print `(-Infinity).toFixed(2) + " bps"`. -/
def humanizeSpeed : JsNum → String
  | JsNum.num q =>
    if q = 0 then "0 bps"
    else if q < 1000 then toFixed2 q ++ " bps"
    else if q < 1000000 then floorToOneDecimal (q / 1000) ++ " kbps"
    else if q < 1000000000 then floorToOneDecimal (q / 1000000) ++ " mbps"
    else if q < 1000000000000 then floorToOneDecimal (q / 1000000000) ++ " gbps"
    else if q < 100000000000000 then toString ⌊q / 1000000000⌋ ++ " gbps"
    else "99999 gbps"
  | JsNum.nan => "99999 gbps"
  | JsNum.posInf => "99999 gbps"
  | JsNum.negInf => "-Infinity bps"

/-- The unit cascade of `humanizeDuration` applied to the already-rounded
non-negative number of seconds `n` (the source's `duration` after
`Math.round`); the section bounds are `60`, `60*60`, `60*60*100`,
`60*60*24*100` and `60*60*24*100000`. -/
def humanizeDurationFinite (n : ℕ) : String :=
  if n < 60 then toString n ++ "s"
  else if n < 3600 then
    toString ((n - n % 60) / 60) ++ "m" ++ twoChar (n % 60) ++ "s"
  else if n < 360000 then
    toString (n / 3600) ++ "h" ++ twoChar (n / 60 % 60) ++ "m"
  else if n < 8640000 then
    toString (n / 86400) ++ "d" ++ twoChar (n / 3600 % 24) ++ "h"
  else if n < 8640000000 then
    toString (n / 86400) ++ "d"
  else "99999d"

/-- Function `humanizeDuration` of `humanize.ts`.  The source first tests
`duration === 0`, then `POSITIVE_INFINITY === duration`, then rounds and walks
the unit cascade; distributing those two leading tests over the constructors:
a finite value hits the cascade with `Math.round(duration) = ⌊duration + 1/2⌋`
(the tracker only ever produces non-negative finite durations, so the cast to ℕ
is exact), `Infinity` yields `"--"`, and `NaN` fails every range test of the
cascade and falls through to the clamp `"99999d"`; for `-Infinity` JS would
print the text -Infinitys. -/
def humanizeDuration : JsNum → String
  | JsNum.num q =>
    if q = 0 then "done" else humanizeDurationFinite (⌊q + 1 / 2⌋).toNat
  | JsNum.posInf => "--"
  | JsNum.nan => "99999d"
  | JsNum.negInf => "-Infinitys"

/-! Embedding of `src/eta-tracker.ts`. -/

/-- The fixed-capacity FIFO `Queue<T>` of `eta-tracker.ts`: a growing array
`content`, a `capacity`, and the ring pointer `index` of the oldest slot.
The source constructor rejects capacities below 1; all queues used by the
tracker are created with a positive capacity. -/
structure Queue (T : Type) where
  capacity : ℕ
  content : List T
  index : ℕ
deriving DecidableEq, Repr

/-- A freshly constructed queue: empty `content`, `index = 0`. -/
def Queue.mk0 (T : Type) (capacity : ℕ) : Queue T :=
  ⟨capacity, [], 0⟩

/-- Method `Queue.push`: while not full, append (`Array.prototype.push`); once
`content.length === capacity`, overwrite the current oldest slot
(`content[index] = element`) and advance `index`, wrapping to `0` at
`capacity`. -/
def Queue.push {T : Type} (q : Queue T) (e : T) : Queue T :=
  if q.content.length = q.capacity then
    { q with content := q.content.set q.index e,
             index := if q.index + 1 = q.capacity then 0 else q.index + 1 }
  else
    { q with content := q.content ++ [e] }

/-- Getter `Queue.oldest`: `content[this.index]`.  The source relies on the queue
being non-empty; reading an out-of-range slot in JS yields `undefined`,
modelled by `none`. -/
def Queue.oldest? {T : Type} (q : Queue T) : Option T :=
  q.content.get? q.index

/-- Pushing the elements of `es` in order. -/
def Queue.pushAll {T : Type} (q : Queue T) (es : List T) : Queue T :=
  es.foldl Queue.push q

/-- The logical oldest-first contents of the ring: the slots from `index` to
the end followed by the slots before `index`. -/
def Queue.toSeq {T : Type} (q : Queue T) : List T :=
  q.content.drop q.index ++ q.content.take q.index

/-- One `{ progress, time }` record of the sliding window (`time` in ms). -/
structure Sample where
  progress : ℚ
  time : ℚ
deriving DecidableEq, Repr

/-- The speed/ETA pair returned by `updateProgressAndGetLatestEta`. -/
structure Estimate where
  speed : JsNum
  eta : JsNum
deriving DecidableEq, Repr

/-- Tracker state: `EtaTracker` owns the sliding window. -/
structure EtaTracker where
  slidingWindow : Queue Sample
deriving DecidableEq, Repr

/-- Constructor of `EtaTracker`: create the queue and seed it with
`{ progress: 0, time: Date.now() }`, so the window is never empty. -/
def EtaTracker.new (slidingWindowWidth : ℕ) (now : ℚ) : EtaTracker :=
  ⟨(Queue.mk0 Sample slidingWindowWidth).push ⟨0, now⟩⟩

/-- Method `EtaTracker.updateProgressAndGetLatestEta(currentProgress, total)` with the
call to `Date.now()` made explicit as `now`.  Reads the pre-push oldest sample,
computes `speed = progressElapsed * 1000 / timeElapsed` (an unguarded JS
division), then the ETA (`0` at completion, `Infinity` for unknown total,
`(total - current) / speed` otherwise), and only then pushes the new sample. -/
def EtaTracker.updateProgressAndGetLatestEta (tr : EtaTracker) (currentProgress : ℚ)
    (total : Option ℚ) (now : ℚ) : Estimate × EtaTracker :=
  let speed : JsNum :=
    match tr.slidingWindow.oldest? with
    | some o => jsDivQ ((currentProgress - o.progress) * 1000) (now - o.time)
    | none => JsNum.nan
  let eta : JsNum :=
    if total = some currentProgress then JsNum.num 0
    else
      match total with
      | none => JsNum.posInf
      | some t => jsDivNum (t - currentProgress) speed
  (⟨speed, eta⟩, ⟨tr.slidingWindow.push ⟨currentProgress, now⟩⟩)

/-! Embedding of `src/progress-bar.ts`. -/

/-- Error message thrown by `start()` when the bar is not `READY`. -/
def errStartTwice : String := "cannot start() twice"

/-- Error message thrown by `tick()` on a non-integer value. -/
def errValueInteger : String := "value must be an integer"

/-- Error message thrown by `tick()` on a value below 1. -/
def errValueAtLeastOne : String := "value must be at least 1"

/-- Error message thrown by `tick()` and `stop()` outside the running state. -/
def errNotRunning : String := "progress bar is not running"

/-- Error message thrown by `tick()` when the increment would pass `total`. -/
def errExceedsTotal : String := "progress exceeds total"

/-- State enum `BarState`. -/
inductive BarState where
  | READY
  | RUNNING
  | STOPPED
deriving DecidableEq, Repr

/-- Terminal effects a call may emit, coarsened to what the claims inspect:
`draw line` stands for the cursor positioning, write and clear-to-right done by
`ProgressBar.draw`, `clearBar`/`newline` for the two `stop()` epilogues. -/
inductive Ev where
  | draw (line : String)
  | hideCursor
  | showCursor
  | clearBar
  | newline
deriving DecidableEq, Repr

/-- The mutable state of a `ProgressBar` instance.  `outputWidth` is the value
the `outputWidth` getter returns for the current frame (the fixed width option
or the terminal's column count); `timerActive` tracks whether the
`etaUpdateInterval` timer is armed and not yet cleared. -/
structure BarSt where
  isTTY : Bool
  outputWidth : ℕ
  total : ℕ
  progress : ℕ
  state : BarState
  timerActive : Bool
  etaCalculator : Option EtaTracker
  latestEta : Option Estimate
  clearAfterStop : Bool
deriving DecidableEq, Repr

/-- The result of a public operation: the bar state after the call, the error
thrown (if any; all precondition checks run before any mutation), and the
terminal effects emitted. -/
structure OpResult where
  bar : BarSt
  err : Option String
  out : List Ev
deriving DecidableEq, Repr

/-- Constant `MIN_BAR_WIDTH` of `progress-bar.ts`. -/
def MIN_BAR_WIDTH : ℕ := 16

/-- The layout walk of `ProgressBar.refresh` for `width ≥ MIN_BAR_WIDTH`, over
the already-humanized duration and speed strings (the source computes
`humanizedDuration` once and reuses it).  Greedily allocates the remaining
width to the ETA value (7 cols), progress/total (`2*digits(total)+4` cols,
which also prepends `" |"` to the ETA section), speed (13 cols), percentage
(6 cols) and the `eta` label (4 cols, rewriting the ETA section), then renders
the bracketed bar in the leftover space and concatenates
bar ++ progress/total ++ percentage ++ eta ++ speed. -/
def renderLineStr (width progress total : ℕ) (dur spd : String) : String :=
  let remaining0 := width - MIN_BAR_WIDTH
  let finish : ℕ → String → String → String → String → String :=
    fun remaining pT pct eta speed =>
      let barWidth := MIN_BAR_WIDTH + remaining - 2
      let processCharCount := barWidth * progress / total
      let unprocessedCharCount := barWidth - processCharCount
      "[" ++ repChar processCharCount '#' ++ repChar unprocessedCharCount '-' ++ "]"
        ++ pT ++ pct ++ eta ++ speed
  if remaining0 < 7 then finish remaining0 "" "" "" ""
  else
    let eta1 := padStart dur 7
    let remaining1 := remaining0 - 7
    let ptw := 2 * (toString total).length + 4
    if remaining1 < ptw then finish remaining1 "" "" eta1 ""
    else
      let pT := padStart (toString progress ++ "/" ++ toString total)
        (2 * (toString total).length + 2)
      let eta2 := " |" ++ eta1
      let remaining2 := remaining1 - ptw
      if remaining2 < 13 then finish remaining2 pT "" eta2 ""
      else
        let spdSec := " | " ++ padStart spd 10
        let remaining3 := remaining2 - 13
        if remaining3 < 6 then finish remaining3 pT "" eta2 spdSec
        else
          let pct := padStart ("(" ++ toString (100 * progress / total) ++ "%)") 6
          let remaining4 := remaining3 - 6
          if remaining4 < 4 then finish remaining4 pT pct eta2 spdSec
          else
            let eta3 := " | " ++ padStart ("eta " ++ dur) 10
            finish (remaining4 - 4) pT pct eta3 spdSec

/-- The layout of `ProgressBar.refresh` for `width ≥ MIN_BAR_WIDTH` given the
latest estimate: humanize its ETA and speed and run the width walk. -/
def renderLine (width progress total : ℕ) (etaV speedV : JsNum) : String :=
  renderLineStr width progress total (humanizeDuration etaV) (humanizeSpeed speedV)

/-- The `if (this.latestEta === undefined)` step of `refresh`: compute a fresh
estimate on demand.  The source asserts the calculator is present (`refresh`
only runs while the bar is running); with no calculator the state is returned
unchanged. -/
def ensureEta (s : BarSt) (now : ℚ) : BarSt :=
  match s.latestEta, s.etaCalculator with
  | none, some tr =>
    let r := tr.updateProgressAndGetLatestEta s.progress (some s.total) now
    { s with latestEta := some r.1, etaCalculator := some r.2 }
  | _, _ => s

namespace ProgressBar

/-- The exit of `ProgressBar.refresh` for a wide-enough terminal
(`renderBarSectionAndThenDraw` together with the section walk): draw the
laid-out line from the latest estimate and clear the interval timer when
`total === progress` (clearing an already cleared interval is a no-op). -/
def refreshWide (s1 : BarSt) : BarSt × List Ev :=
  ({ s1 with timerActive := if s1.total = s1.progress then false else s1.timerActive },
   [Ev.draw (renderLine s1.outputWidth s1.progress s1.total
      (s1.latestEta.getD ⟨JsNum.nan, JsNum.nan⟩).eta
      (s1.latestEta.getD ⟨JsNum.nan, JsNum.nan⟩).speed)])

/-- Method `ProgressBar.refresh`: if the terminal is narrower than `MIN_BAR_WIDTH`,
draw a row of `'#'` and return — without the completion check.  Otherwise
compute the latest estimate if missing (the source does so only after the
ETA-section width test, i.e. only when at least 7 columns remain) and finish
through `refreshWide`. -/
def refresh (s : BarSt) (now : ℚ) : BarSt × List Ev :=
  if s.outputWidth < MIN_BAR_WIDTH then
    (s, [Ev.draw (repChar s.outputWidth '#')])
  else
    refreshWide (if 7 ≤ s.outputWidth - MIN_BAR_WIDTH then ensureEta s now else s)

/-- Method `ProgressBar.start` with `Date.now()` explicit.  Throws when not `READY`;
returns before any other effect when the output is not a TTY (in particular the
state is left `READY`); otherwise creates the `EtaTracker(120)`, arms the
1000 ms interval timer, hides the cursor, and becomes `RUNNING`. -/
def start (s : BarSt) (now : ℚ) : OpResult :=
  if s.state ≠ BarState.READY then ⟨s, some errStartTwice, []⟩
  else if s.isTTY = false then ⟨s, none, []⟩
  else
    ⟨{ s with etaCalculator := some (EtaTracker.new 120 now),
              timerActive := true,
              state := BarState.RUNNING },
     none, [Ev.hideCursor]⟩

/-- Method `ProgressBar.tick(value)` with `Date.now()` explicit.  The four
precondition checks run in source order before any mutation; on a non-TTY
output the call is a no-op; otherwise the progress is incremented and the bar
redrawn synchronously via `refresh`.  (`value` is a JS number; after the
checks it is an integer ≥ 1, so `value.num.toNat` is exact.) -/
def tick (s : BarSt) (value : ℚ) (now : ℚ) : OpResult :=
  if value.den ≠ 1 then ⟨s, some errValueInteger, []⟩
  else if value < 1 then ⟨s, some errValueAtLeastOne, []⟩
  else if s.state ≠ BarState.RUNNING then ⟨s, some errNotRunning, []⟩
  else if ((s.total : ℚ)) < (s.progress : ℚ) + value then
    ⟨s, some errExceedsTotal, []⟩
  else if s.isTTY = false then ⟨s, none, []⟩
  else
    let s1 := { s with progress := s.progress + value.num.toNat }
    let r := refresh s1 now
    ⟨r.1, none, r.2⟩

/-- Method `ProgressBar.stop`.  Throws when never started; returns unchanged when the
output is not a TTY or the bar is already `STOPPED`; otherwise clears the
interval timer, clears the bar line or advances past it, shows the cursor, and
becomes `STOPPED`. -/
def stop (s : BarSt) : OpResult :=
  if s.state = BarState.READY then ⟨s, some errNotRunning, []⟩
  else if s.isTTY = false ∨ s.state = BarState.STOPPED then ⟨s, none, []⟩
  else
    ⟨{ s with timerActive := false, state := BarState.STOPPED },
     none,
     (if s.clearAfterStop then [Ev.clearBar] else [Ev.newline]) ++ [Ev.showCursor]⟩

/-- One firing of the `etaUpdateInterval` callback armed by `start`: recompute
`latestEta` from the tracker and redraw.  The callback only runs while the
timer is armed; a cleared timer fires nothing. -/
def periodicFire (s : BarSt) (now : ℚ) : BarSt × List Ev :=
  if s.timerActive = false then (s, [])
  else
    match s.etaCalculator with
    | none => (s, [])
    | some tr =>
      let r := tr.updateProgressAndGetLatestEta s.progress (some s.total) now
      refresh { s with etaCalculator := some r.2, latestEta := some r.1 } now

end ProgressBar

/-! Concrete instances used in the claim evaluations. -/

/-- A freshly constructed bar on a non-interactive output (`total = 10`,
fixed width 80): the state right after the `ProgressBar` constructor. -/
def nonTTYBar : BarSt :=
  ⟨false, 80, 10, 0, BarState.READY, false, none, none, false⟩

/-- A freshly constructed bar on a 20-column interactive terminal with
`total = 1`. -/
def smallBar : BarSt :=
  ⟨true, 20, 1, 0, BarState.READY, false, none, none, false⟩

/-- A running bar on a 20-column interactive terminal with `total = 1`,
armed timer, and tracker seeded at time 0 — the state `start()` produces
from `smallBar` at time 0. -/
def c3RunBar : BarSt :=
  ⟨true, 20, 1, 0, BarState.RUNNING, true, some (EtaTracker.new 120 0), none, false⟩

/-- A constructed, never started bar on an interactive terminal. -/
def idleBar : BarSt :=
  ⟨true, 40, 10, 0, BarState.READY, false, none, none, false⟩

/-- Ring-buffer invariant for `Queue`: the backing array splits as `A ++ B` at
`index`, and the logical oldest-first sequence `B ++ A` is exactly the suffix
of the pushed elements `es` that fits the capacity. -/
def ringInv {T : Type} (C : ℕ) (es : List T) (q : Queue T) : Prop :=
  q.capacity = C ∧ ∃ A B, q.content = A ++ B ∧ B ≠ [] ∧ q.index = A.length ∧
    A.length + B.length = C ∧ B ++ A = es.drop (es.length - C)

/-! Helper lemmas. -/

lemma list_set_append {T : Type} (A B : List T) (e : T) :
    (A ++ B).set A.length e = A ++ B.set 0 e := by
  induction A with
  | nil => simp
  | cons a A ih => simp [List.set, ih]

lemma list_get?_append_len {T : Type} (A B : List T) :
    (A ++ B).get? A.length = B.get? 0 := by
  induction A with
  | nil => simp
  | cons a A ih => simpa using ih

lemma pushAll_fill {T : Type} (C : ℕ) : ∀ (es : List T) (q : Queue T), q.capacity = C →
    q.index = 0 → q.content.length + es.length ≤ C →
    q.pushAll es = ⟨C, q.content ++ es, 0⟩ := by
  intro es
  induction es with
  | nil =>
    intro q h1 h2 h3
    cases q
    simp_all [Queue.pushAll]
  | cons e es ih =>
    intro q h1 h2 h3
    have hpush : q.push e = ⟨C, q.content ++ [e], 0⟩ := by
      have hne : ¬ q.content.length = q.capacity := by simp at h3 ⊢; omega
      cases q
      simp_all [Queue.push]
    have hfold : q.pushAll (e :: es) = (q.push e).pushAll es := by
      simp [Queue.pushAll]
    rw [hfold, hpush]
    have := ih ⟨C, q.content ++ [e], 0⟩ rfl rfl (by simp at h3 ⊢; omega)
    simpa using this

lemma ringInv_push {T : Type} (C : ℕ) (es : List T) (e : T) (q : Queue T)
    (h : ringInv C es q) (hes : C ≤ es.length) : ringInv C (es ++ [e]) (q.push e) := by
  obtain ⟨hcap, A, B, hc, hB, hi, hlen, hBA⟩ := h
  have hful : q.content.length = q.capacity := by
    rw [hc, hcap, List.length_append]; omega
  unfold Queue.push
  rw [if_pos hful]
  by_cases hone : q.index + 1 = q.capacity
  · -- the write lands in the slot just before the wrap point: the pointer wraps to 0
    rw [if_pos hone]
    have hBlen : B.length = 1 := by rw [hi, hcap] at hone; omega
    obtain ⟨b, rfl⟩ : ∃ b, B = [b] := by
      match B, hBlen with
      | [b], _ => exact ⟨b, rfl⟩
    refine ⟨hcap, [], A ++ [e], ?_, by simp, rfl, by simp; omega, ?_⟩
    · simp only [hc, hi, list_set_append]
      simp
    · have hdrop : es.drop (es.length - C + 1) = A := by
        have hdd : es.drop (es.length - C + 1) = (es.drop (es.length - C)).drop 1 := by
          rw [List.drop_drop]
        rw [hdd, ← hBA]
        simp
      have hL : es.length + [e].length - C = (es.length - C) + 1 := by simp; omega
      simp only [List.append_nil, List.length_append, hL]
      rw [List.drop_append_of_le_length (by omega), hdrop]
  · rw [if_neg hone]
    have hBlen : 2 ≤ B.length := by
      rw [hi, hcap] at hone
      rcases B with _ | ⟨b, B2⟩
      · simp at hB
      · simp at hlen ⊢
        omega
    obtain ⟨b, B2, rfl⟩ : ∃ b B2, B = b :: B2 := by
      match B, hBlen with
      | b :: B2, _ => exact ⟨b, B2, rfl⟩
    have hB2 : B2 ≠ [] := by
      simp at hBlen
      intro hh
      subst hh
      simp at hBlen
    refine ⟨hcap, A ++ [e], B2, ?_, hB2, by simp [hi], by simp at hlen ⊢; omega, ?_⟩
    · simp only [hc, hi, list_set_append]
      simp [List.set]
    · have hdrop : es.drop (es.length - C + 1) = B2 ++ A := by
        have hdd : es.drop (es.length - C + 1) = (es.drop (es.length - C)).drop 1 := by
          rw [List.drop_drop]
        rw [hdd, ← hBA]
        simp
      have hL : es.length + [e].length - C = (es.length - C) + 1 := by simp; omega
      simp only [List.length_append, hL]
      rw [List.drop_append_of_le_length (by omega), hdrop]
      simp

lemma ringInv_oldest {T : Type} (C : ℕ) (es : List T) (q : Queue T) (h : ringInv C es q) :
    q.oldest? = es.get? (es.length - C) := by
  obtain ⟨hcap, A, B, hc, hB, hi, hlen, hBA⟩ := h
  unfold Queue.oldest?
  rw [hc, hi, list_get?_append_len]
  have h0 : B.get? 0 = (B ++ A).get? 0 := by
    rcases B with _ | ⟨b, B2⟩
    · simp at hB
    · simp
  rw [h0, hBA]
  simp [List.get?_eq_getElem?, List.getElem?_drop]

lemma ringInv_toSeq {T : Type} (C : ℕ) (es : List T) (q : Queue T) (h : ringInv C es q) :
    q.toSeq = es.drop (es.length - C) := by
  obtain ⟨hcap, A, B, hc, hB, hi, hlen, hBA⟩ := h
  unfold Queue.toSeq
  rw [hc, hi, List.drop_left, List.take_left]
  exact hBA

lemma ringInv_pushAll {T : Type} (C : ℕ) (hC : 1 ≤ C) : ∀ (es : List T), C ≤ es.length →
    ringInv C es ((Queue.mk0 T C).pushAll es) := by
  intro es
  induction es using List.reverseRecOn with
  | nil => intro h; simp at h; omega
  | append_singleton l a ih =>
    intro h
    rcases Nat.lt_or_ge l.length C with hl | hl
    · have hfill := pushAll_fill C (l ++ [a]) (Queue.mk0 T C) rfl rfl
        (by simp [Queue.mk0] at h ⊢; omega)
      rw [hfill]
      simp only [Queue.mk0, List.nil_append]
      refine ⟨rfl, [], l ++ [a], by simp, by simp, rfl, ?_, ?_⟩
      · simp at h ⊢
        omega
      · have h0 : (l ++ [a]).length - C = 0 := by simp at h ⊢; omega
        rw [h0]
        simp
    · have hstep : (Queue.mk0 T C).pushAll (l ++ [a]) = ((Queue.mk0 T C).pushAll l).push a := by
        simp [Queue.pushAll, List.foldl_append]
      rw [hstep]
      exact ringInv_push C l a _ (ih hl) hl

lemma ensureEta_total (s : BarSt) (now : ℚ) : (ensureEta s now).total = s.total := by
  unfold ensureEta
  split <;> rfl

lemma ensureEta_progress (s : BarSt) (now : ℚ) : (ensureEta s now).progress = s.progress := by
  unfold ensureEta
  split <;> rfl

lemma refreshWide_cancels (s1 : BarSt) (h : s1.total = s1.progress) :
    (ProgressBar.refreshWide s1).1.timerActive = false := by
  simp [ProgressBar.refreshWide, h]

lemma refresh_cancels_at_total (s : BarSt) (now : ℚ) (hw : MIN_BAR_WIDTH ≤ s.outputWidth)
    (hdone : s.total = s.progress) : (ProgressBar.refresh s now).1.timerActive = false := by
  unfold ProgressBar.refresh
  rw [if_neg (by omega)]
  by_cases hc : 7 ≤ s.outputWidth - MIN_BAR_WIDTH
  · rw [if_pos hc]
    exact refreshWide_cancels _ (by rw [ensureEta_total, ensureEta_progress]; exact hdone)
  · rw [if_neg hc]
    exact refreshWide_cancels _ hdone

/-! Claim theorems. -/

lemma humanizeDuration_3599 : humanizeDuration (JsNum.num 3599) = "59m 59s" := by
  have hf : (⌊(3599:ℚ) + 1 / 2⌋) = 3599 := by norm_num
  simp only [humanizeDuration]
  rw [if_neg (by norm_num), hf]
  decide

lemma humanizeSpeed_one : humanizeSpeed (JsNum.num 1) = "1.00 bps" := by
  have hf : (⌊(1:ℚ) * 100 + 1 / 2⌋) = 100 := by norm_num
  simp only [humanizeSpeed]
  rw [if_neg (by norm_num), if_pos (by norm_num)]
  unfold toFixed2
  rw [hf]
  decide

/-- Claim C1 (refuting evaluation): at width 60, progress 500 of total 1000,
latest estimate eta = 3599 s and speed = 1 unit/s — values the estimator can
produce — the layout path emits a 61-character line, one more than the width.
The overflow comes from `humanizeDuration(3599) = "59m 59s"` (7 characters,
one more than the documented 6-character budget of `humanize.ts`). -/
theorem renderLine_exceeds_width :
    60 < (renderLine 60 500 1000 (JsNum.num 3599) (JsNum.num 1)).length
    ∧ (renderLine 60 500 1000 (JsNum.num 3599) (JsNum.num 1)).length = 61 := by
  have h : renderLine 60 500 1000 (JsNum.num 3599) (JsNum.num 1)
      = renderLineStr 60 500 1000 "59m 59s" "1.00 bps" := by
    unfold renderLine
    rw [humanizeDuration_3599, humanizeSpeed_one]
  rw [h]
  constructor
  · decide
  · decide

/-- Claim C2 (refuting evaluation): on a non-interactive output, `start()`
returns before the `state = RUNNING` assignment, so the bar stays `READY` and
a following `tick()` throws `progress bar is not running` — the claim says the
state becomes `Running` and a subsequent tick does not fail. -/
theorem start_nonTTY_leaves_ready :
    (ProgressBar.start nonTTYBar 0).bar.state = BarState.READY
    ∧ (ProgressBar.start nonTTYBar 0).out = []
    ∧ (ProgressBar.tick (ProgressBar.start nonTTYBar 0).bar 1 0).err
        = some errNotRunning := by
  refine ⟨rfl, rfl, ?_⟩
  show (ProgressBar.tick nonTTYBar 1 0).err = some errNotRunning
  unfold ProgressBar.tick
  rw [if_neg (by norm_num), if_neg (by norm_num), if_pos (by decide)]

/-- Claim C3 (counterexample): on a 20-column terminal with `total = 1`,
`start()` arms the timer, and the very next `tick(1)` — not a periodic timer
firing — already observes `progress == total` in its synchronous redraw and
cancels the interval timer; the claim says a `tick()` never cancels it. -/
theorem tick_at_total_cancels_cex :
    (ProgressBar.start smallBar 0).bar.timerActive = true
    ∧ (ProgressBar.tick (ProgressBar.start smallBar 0).bar 1 0).bar.timerActive = false := by
  refine ⟨rfl, ?_⟩
  show (ProgressBar.tick c3RunBar 1 0).bar.timerActive = false
  unfold ProgressBar.tick
  rw [if_neg (by norm_num), if_neg (by norm_num), if_neg (by decide),
    if_neg (by push_cast [c3RunBar]; norm_num), if_neg (by decide)]
  exact refresh_cancels_at_total _ 0 (by decide) (by decide)

/-- Claim C3 (amended): the interval timer is cancelled whenever the full-bar
redraw path (terminal width at least `MIN_BAR_WIDTH`) observes
`progress == total`, whether reached from a periodic timer firing or from a
`tick()` call: a running `tick(value)` whose increment reaches `total` clears
the timer synchronously. -/
theorem tick_reaching_total_cancels_interval (s : BarSt) (value now : ℚ)
    (h1 : s.state = BarState.RUNNING) (h2 : s.isTTY = true)
    (h3 : MIN_BAR_WIDTH ≤ s.outputWidth) (h4 : value.den = 1) (h5 : 1 ≤ value)
    (h6 : (s.progress : ℚ) + value = (s.total : ℚ)) :
    (ProgressBar.tick s value now).err = none
    ∧ (ProgressBar.tick s value now).bar.timerActive = false := by
  have hnum : (value.num : ℚ) = value := by
    rw [← Rat.num_div_den value, h4]
    simp
  have h1num : (1:ℤ) ≤ value.num := by
    have : (1:ℚ) ≤ (value.num : ℚ) := by rw [hnum]; exact h5
    exact_mod_cast this
  have hfin : s.progress + value.num.toNat = s.total := by
    have hq : ((s.progress : ℚ)) + (value.num : ℚ) = (s.total : ℚ) := by rw [hnum]; exact h6
    have hz : ((s.progress : ℤ)) + value.num = (s.total : ℤ) := by exact_mod_cast hq
    omega
  unfold ProgressBar.tick
  rw [if_neg (by simp [h4]), if_neg (by exact not_lt.2 h5), if_neg (by simp [h1]),
    if_neg (by rw [← h6]; exact lt_irrefl _), if_neg (by simp [h2])]
  refine ⟨rfl, ?_⟩
  exact refresh_cancels_at_total _ now h3 (by simp [hfin])

/-- Witness for the amended C3 at a concrete running bar. -/
theorem tick_reaching_total_cancels_interval_witness :
    (ProgressBar.tick c3RunBar 1 0).err = none
    ∧ (ProgressBar.tick c3RunBar 1 0).bar.timerActive = false := by
  exact tick_reaching_total_cancels_interval c3RunBar 1 0 rfl rfl (by decide) rfl (by norm_num)
    (by push_cast [c3RunBar]; norm_num)

/-- Claim C4 (refuting evaluation): `twoChar`'s padding condition is inverted
(`n < 10 ? String(n) : " " + String(n)`), so the seconds/minutes field is
space-padded when it is at least 10 and left bare when below 10:
`humanizeDuration(61) = "1m1s"` and `humanizeDuration(3661) = "1h1m"`, not
`"1m 1s"` / `"1h 1m"` as the claim states. -/
theorem humanizeDuration_pads_wrong_side :
    humanizeDuration (JsNum.num 61) = "1m1s"
    ∧ humanizeDuration (JsNum.num 3661) = "1h1m"
    ∧ twoChar 1 = "1" ∧ twoChar 59 = " 59" := by
  have h61 : (⌊(61:ℚ) + 1 / 2⌋) = 61 := by norm_num
  have h3661 : (⌊(3661:ℚ) + 1 / 2⌋) = 3661 := by norm_num
  refine ⟨?_, ?_, by decide, by decide⟩
  · simp only [humanizeDuration]
    rw [if_neg (by norm_num), h61]
    decide
  · simp only [humanizeDuration]
    rw [if_neg (by norm_num), h3661]
    decide

/-- Claim C5 (refuting evaluation): `humanizeSpeed(999.999)` takes the
`speed < 1000` branch but `toFixed(2)` rounds the value up to `"1000.00"`,
producing the 11-character string `"1000.00 bps"` — above the documented
10-character maximum. -/
theorem humanizeSpeed_exceeds_ten_chars :
    humanizeSpeed (JsNum.num (999999 / 1000)) = "1000.00 bps"
    ∧ (humanizeSpeed (JsNum.num (999999 / 1000))).length = 11 := by
  have hf : (⌊(999999 / 1000 : ℚ) * 100 + 1 / 2⌋) = 100000 := by norm_num
  have h : humanizeSpeed (JsNum.num (999999 / 1000)) = "1000.00 bps" := by
    simp only [humanizeSpeed]
    rw [if_neg (by norm_num), if_pos (by norm_num)]
    unfold toFixed2
    rw [hf]
    decide
  exact ⟨h, by rw [h]; rfl⟩

/-- Claim C6 (refuting evaluation): after a non-interactive `start()` the
state is still `READY` (see C2), so `stop()` throws
`progress bar is not running` instead of silently advancing the state to
`STOPPED` as the claim states. -/
theorem stop_after_nonTTY_start_throws :
    (ProgressBar.stop (ProgressBar.start nonTTYBar 0).bar).err
        = some errNotRunning
    ∧ (ProgressBar.stop (ProgressBar.start nonTTYBar 0).bar).bar.state = BarState.READY := by
  exact ⟨rfl, rfl⟩

/-- Claim C7: for a sliding-window queue of capacity `C ≥ 1`, after pushing
`C + k` elements (`k ≥ 0`) the oldest retrievable element is exactly the
`(k+1)`-th inserted element (1-indexed), and the queue retains exactly the
most recent `C` elements, oldest-first. -/
theorem queue_retains_most_recent {T : Type} (C k : ℕ) (hC : 1 ≤ C) (es : List T)
    (h : es.length = C + k) :
    ((Queue.mk0 T C).pushAll es).oldest? = es.get? k
    ∧ ((Queue.mk0 T C).pushAll es).toSeq = es.drop k := by
  have hinv := ringInv_pushAll C hC es (by omega)
  have hk : es.length - C = k := by omega
  have h1 := ringInv_oldest C es _ hinv
  have h2 := ringInv_toSeq C es _ hinv
  rw [hk] at h1 h2
  exact ⟨h1, h2⟩

/-- Witness for C7: capacity 2, three pushed elements — the oldest retrievable
element is the second pushed one, and exactly the last two are retained. -/
theorem queue_retains_most_recent_witness :
    (1 ≤ 2 ∧ ([10, 20, 30] : List ℕ).length = 2 + 1)
    ∧ ((Queue.mk0 ℕ 2).pushAll [10, 20, 30]).oldest? = some 20
    ∧ ((Queue.mk0 ℕ 2).pushAll [10, 20, 30]).toSeq = [20, 30] := by
  have h := queue_retains_most_recent 2 1 (by decide) ([10, 20, 30] : List ℕ) (by decide)
  exact ⟨⟨by decide, by decide⟩, by simpa using h.1, by simpa using h.2⟩

/-- Claim C8: when `currentProgress == total`, the returned ETA is exactly `0`
regardless of the computed speed; the returned speed is computed from the
pre-push oldest sample; and the new `{currentProgress, now}` sample is pushed
only after the estimate is computed. -/
theorem updateEta_completion_eta_zero (tr : EtaTracker) (currentProgress now : ℚ)
    (total : Option ℚ) (o : Sample) (ho : tr.slidingWindow.oldest? = some o) :
    (total = some currentProgress →
      (tr.updateProgressAndGetLatestEta currentProgress total now).1.eta = JsNum.num 0)
    ∧ (tr.updateProgressAndGetLatestEta currentProgress total now).1.speed
        = jsDivQ ((currentProgress - o.progress) * 1000) (now - o.time)
    ∧ (tr.updateProgressAndGetLatestEta currentProgress total now).2.slidingWindow
        = tr.slidingWindow.push ⟨currentProgress, now⟩ := by
  refine ⟨?_, ?_, rfl⟩
  · intro ht
    simp [EtaTracker.updateProgressAndGetLatestEta, ht]
  · simp [EtaTracker.updateProgressAndGetLatestEta, ho]

/-- Witness for C8: a tracker seeded at time 0, queried at completion
(`currentProgress = total = 5`) at time 0 — the elapsed time is zero, so the
speed is the non-finite `0 * 1000 / 0`, yet the ETA is exactly 0. -/
theorem updateEta_completion_eta_zero_witness :
    ((EtaTracker.new 120 0).slidingWindow.oldest? = some ⟨0, 0⟩)
    ∧ ((EtaTracker.new 120 0).updateProgressAndGetLatestEta 5 (some 5) 0).1.eta = JsNum.num 0
    ∧ ((EtaTracker.new 120 0).updateProgressAndGetLatestEta 5 (some 5) 0).2.slidingWindow
        = (EtaTracker.new 120 0).slidingWindow.push ⟨5, 0⟩ := by
  have h := updateEta_completion_eta_zero (EtaTracker.new 120 0) 5 0 (some 5) ⟨0, 0⟩ (by decide)
  exact ⟨by decide, h.1 rfl, h.2.2⟩

/-- Claim C9: every rejected `tick(value)` — non-integer value, value below 1,
state not `RUNNING`, or increment past `total` — reports an error and leaves
the bar state unchanged, emitting no terminal output: all checks precede any
mutation. -/
theorem tick_rejected_unchanged (s : BarSt) (value now : ℚ)
    (h : value.den ≠ 1 ∨ value < 1 ∨ s.state ≠ BarState.RUNNING
      ∨ (s.total : ℚ) < (s.progress : ℚ) + value) :
    (ProgressBar.tick s value now).bar = s
    ∧ (ProgressBar.tick s value now).err.isSome = true
    ∧ (ProgressBar.tick s value now).out = [] := by
  unfold ProgressBar.tick
  split_ifs with h1 h2 h3 h4 h5 <;>
    first
      | exact ⟨rfl, rfl, rfl⟩
      | (exfalso; rcases h with h | h | h | h <;> simp_all)

/-- Witness for C9: `tick(0)` on a constructed bar is rejected (value below 1)
and leaves the state untouched. -/
theorem tick_rejected_unchanged_witness :
    ((0:ℚ) < 1)
    ∧ (ProgressBar.tick idleBar 0 0).bar = idleBar
    ∧ (ProgressBar.tick idleBar 0 0).err.isSome = true := by
  have h := tick_rejected_unchanged idleBar 0 0 (Or.inr (Or.inl (by norm_num)))
  exact ⟨by norm_num, h.1, h.2.1⟩

/-- Claim C10: `updateProgressAndGetLatestEta` divides by the elapsed time
with no zero guard.  Called at the very millisecond of the oldest sample's
timestamp, the speed is `NaN` when progress has not advanced and `Infinity`
when it has; the `NaN` propagates into the returned ETA, and both non-finite
speeds reach the display as the clamp string `"99999 gbps"`. -/
theorem updateEta_zero_elapsed_nonfinite (tr : EtaTracker) (currentProgress now t : ℚ)
    (o : Sample) (ho : tr.slidingWindow.oldest? = some o) (hnow : now = o.time)
    (hne : t ≠ currentProgress) :
    (currentProgress = o.progress →
      (tr.updateProgressAndGetLatestEta currentProgress (some t) now).1.speed = JsNum.nan
      ∧ (tr.updateProgressAndGetLatestEta currentProgress (some t) now).1.eta = JsNum.nan)
    ∧ (o.progress < currentProgress →
      (tr.updateProgressAndGetLatestEta currentProgress (some t) now).1.speed = JsNum.posInf)
    ∧ humanizeSpeed JsNum.nan = "99999 gbps"
    ∧ humanizeSpeed JsNum.posInf = "99999 gbps" := by
  refine ⟨?_, ?_, rfl, rfl⟩
  · intro hp
    have hs : jsDivQ ((currentProgress - o.progress) * 1000) (now - o.time) = JsNum.nan := by
      rw [hnow, sub_self, hp, sub_self, zero_mul]
      simp [jsDivQ]
    constructor
    · simp [EtaTracker.updateProgressAndGetLatestEta, ho, hs]
    · simp [EtaTracker.updateProgressAndGetLatestEta, ho, hs, hne, jsDivNum]
  · intro hp
    have ha : 0 < (currentProgress - o.progress) * 1000 := by
      have := sub_pos.mpr hp
      positivity
    have hs : jsDivQ ((currentProgress - o.progress) * 1000) (now - o.time) = JsNum.posInf := by
      rw [hnow, sub_self]
      simp [jsDivQ, ha, ne_of_gt ha]
    simp [EtaTracker.updateProgressAndGetLatestEta, ho, hs]

/-- Witness for C10: tracker seeded at time 7, queried at time 7 with no
progress made and total 5 — speed and ETA are both `NaN`. -/
theorem updateEta_zero_elapsed_nonfinite_witness :
    ((EtaTracker.new 120 7).slidingWindow.oldest? = some ⟨0, 7⟩)
    ∧ ((EtaTracker.new 120 7).updateProgressAndGetLatestEta 0 (some 5) 7).1.speed = JsNum.nan
    ∧ ((EtaTracker.new 120 7).updateProgressAndGetLatestEta 0 (some 5) 7).1.eta = JsNum.nan := by
  have h := updateEta_zero_elapsed_nonfinite (EtaTracker.new 120 7) 0 7 5 ⟨0, 7⟩
    (by decide) rfl (by norm_num)
  exact ⟨by decide, (h.1 rfl).1, (h.1 rfl).2⟩
